import Mathlib

set_option maxRecDepth 10000

/-!
Shallow embedding of the CHIP-8 interpreter in `src/chip8.rs`.

Conventions of the embedding:
* Machine integers (`u8`, `u16`) are `Nat` with explicit `% 256` / `% 65536`
  at the points where Rust's release-mode wrapping arithmetic truncates.
* Fixed arrays (`memory : [u8; 4096]`, `reg_v : [u8; 16]`, `stack : [u16; 16]`,
  `display : [u8; 2048]`) are `Nat → Nat` stores; only the in-range indices are
  meaningful.  Reads of a `u8` cell take `% 256` (a `u8` cell always holds a
  value below 256 in the source).
* A Rust panic (array/slice index out of bounds) is modelled by returning
  `none`; `some` is normal completion.  `step` in the source returns `()` and
  signals nothing to the caller.
* The `RND` instruction draws from a thread-local RNG in the source; the random
  byte is passed to `step` as the extra argument `rnd`.
-/

namespace Chipper

/-- Pointwise update of a `Nat`-indexed store (one array-slot assignment). -/
def upd (f : Nat → Nat) (i v : Nat) : Nat → Nat := fun j => if j = i then v else f j

/-- The built-in 80-byte hexadecimal glyph set (`CHARSET` in the source). -/
def CHARSET : List Nat :=
  [0xF0, 0x90, 0x90, 0x90, 0xF0,
   0x20, 0x60, 0x20, 0x20, 0x70,
   0xF0, 0x10, 0xF0, 0x80, 0xF0,
   0xF0, 0x10, 0xF0, 0x10, 0xF0,
   0x90, 0x90, 0xF0, 0x10, 0x10,
   0xF0, 0x80, 0xF0, 0x10, 0xF0,
   0xF0, 0x80, 0xF0, 0x90, 0xF0,
   0xF0, 0x10, 0x20, 0x40, 0x40,
   0xF0, 0x90, 0xF0, 0x90, 0xF0,
   0xF0, 0x90, 0xF0, 0x10, 0xF0,
   0xF0, 0x90, 0xF0, 0x90, 0x90,
   0xE0, 0x90, 0xE0, 0x90, 0xE0,
   0xF0, 0x80, 0x80, 0x80, 0xF0,
   0xE0, 0x90, 0x90, 0x90, 0xE0,
   0xF0, 0x80, 0xF0, 0x80, 0xF0,
   0xF0, 0x80, 0xF0, 0x80, 0x80]

/-- The `Chip8` machine state (`struct Chip8` in the source).  The flag
register is `reg_v 15` (`FLAG` in the source); `ROMTOP` is `512 = 0x200`. -/
structure Chip8 where
  memory : Nat → Nat
  reg_v : Nat → Nat
  stack : Nat → Nat
  reg_sp : Nat
  reg_i : Nat
  reg_pc : Nat
  reg_dt : Nat
  reg_st : Nat
  key_pressed : Nat
  shift_using_vy : Bool
  increment_i_on_ld : Bool
  display : Nat → Nat

/-- `Chip8::new`: zeroed state, program counter `0x200`, glyph set copied to
memory `0..80`, everything above `80` zero, `key_pressed = 0`. -/
def Chip8.new : Chip8 where
  memory := fun i => if i < 80 then CHARSET.getD i 0 else 0
  reg_v := fun _ => 0
  stack := fun _ => 0
  reg_sp := 0
  reg_i := 0
  reg_pc := 0x200
  reg_dt := 0
  reg_st := 0
  key_pressed := 0
  shift_using_vy := false
  increment_i_on_ld := false
  display := fun _ => 0

/-- `Chip8::set_key_pressed`. -/
def Chip8.set_key_pressed (s : Chip8) (key : Nat) : Chip8 :=
  { s with key_pressed := key }

/-- `Chip8::clear_display`: zeroes the whole display. -/
def Chip8.clear_display (s : Chip8) : Chip8 :=
  { s with display := fun _ => 0 }

/-- `Chip8::update_timers`: each timer decrements when positive. -/
def Chip8.update_timers (s : Chip8) : Chip8 :=
  { s with
    reg_dt := if 0 < s.reg_dt then s.reg_dt - 1 else s.reg_dt,
    reg_st := if 0 < s.reg_st then s.reg_st - 1 else s.reg_st }

/-- `Chip8::boot_rom`.  The source opens the named file and reads its
`file_len` bytes into the slice `memory[512 .. 512 + file_len]`; here the
file's contents are passed as the byte list `program`.  When
`512 + program.length > 4096` the slice construction is out of bounds, a Rust
panic, modelled as `none`.  Otherwise the program bytes land at `512..`,
and the source then resets the latch (to `0xff`), stack pointer, index
register, program counter (to `512`), both timers, the 16 stack slots, the 16
registers, and clears the display. -/
def Chip8.boot_rom (s : Chip8) (program : List Nat) : Option Chip8 :=
  if 512 + program.length ≤ 4096 then
    some { s with
      memory := fun i =>
        if 512 ≤ i ∧ i < 512 + program.length then program.getD (i - 512) 0
        else s.memory i,
      key_pressed := 0xff,
      reg_sp := 0,
      reg_i := 0,
      reg_pc := 512,
      reg_dt := 0,
      reg_st := 0,
      stack := fun i => if i < 16 then 0 else s.stack i,
      reg_v := fun i => if i < 16 then 0 else s.reg_v i,
      display := fun _ => 0 }
  else none

/-- Inner loop of the `DRW` arm (`for f in 0..8`): processes the remaining
`fuel` bits of the current `sprite` byte, bit counter starting at `f`.  Each
iteration reads the column base from `regv x` (the register file mutates at
index 15 on collision), computes `col = (reg_v[x] + f) % 64` in `u8`
arithmetic, and XOR-draws the leading sprite bit, setting the flag register to
1 on collision.  Returns the final register file and display. -/
def drawBits (x row : Nat) : Nat → Nat → Nat → (Nat → Nat) → (Nat → Nat) →
    ((Nat → Nat) × (Nat → Nat))
  | _f, 0, _sprite, regv, disp => (regv, disp)
  | f, fuel + 1, sprite, regv, disp =>
    let b := sprite / 128 % 2
    let col := (regv x % 256 + f) % 256 % 64
    let offset := row * 64 + col
    let sprite2 := sprite * 2 % 256
    if b = 1 then
      if disp offset ≠ 0 then
        drawBits x row (f + 1) fuel sprite2 (upd regv 15 1) (upd disp offset 0)
      else
        drawBits x row (f + 1) fuel sprite2 regv (upd disp offset 1)
    else
      drawBits x row (f + 1) fuel sprite2 regv disp

/-- Outer loop of the `DRW` arm (`for c in 0..n`): processes the remaining
`fuel` sprite rows, row counter starting at `c`.  Each row reads the sprite
byte at `memory[reg_i + c]` (`u16` address arithmetic; an address at or above
4096 is an out-of-bounds panic, `none`), computes
`row = (reg_v[y] as u16 + c) % 32`, and runs the 8-bit inner loop. -/
def drawRows (mem : Nat → Nat) (reg_i x y : Nat) : Nat → Nat →
    (Nat → Nat) → (Nat → Nat) → Option ((Nat → Nat) × (Nat → Nat))
  | _c, 0, regv, disp => some (regv, disp)
  | c, fuel + 1, regv, disp =>
    let addr := (reg_i + c) % 65536
    if addr < 4096 then
      let sprite := mem addr % 256
      let row := (regv y % 256 + c) % 32
      let p := drawBits x row 0 8 sprite regv disp
      drawRows mem reg_i x y (c + 1) fuel p.1 p.2
    else none

/-- The `LD [I], Vx` copy loop (`for a in 0..x+1 { memory[i+a] = reg_v[a] }`),
expressed as the store after the first `count` iterations. -/
def storeRegs (regv : Nat → Nat) (i : Nat) (mem : Nat → Nat) : Nat → (Nat → Nat)
  | 0 => mem
  | a + 1 => upd (storeRegs regv i mem a) (i + a) (regv a % 256)

/-- The `LD Vx, [I]` copy loop (`for a in 0..x+1 { reg_v[a] = memory[i+a] }`),
expressed as the register file after the first `count` iterations. -/
def loadRegs (mem : Nat → Nat) (i : Nat) (regv : Nat → Nat) : Nat → (Nat → Nat)
  | 0 => regv
  | a + 1 => upd (loadRegs mem i regv a) a (mem (i + a) % 256)

/-- The decode/execute dispatch of `Chip8::step`, applied to the state `s1`
in which the program counter has already been advanced past the fetched
instruction.  The branch structure follows the source's `match` arms in order;
unknown opcodes only print and fall through (`some s1`).  Array accesses out
of bounds (stack overflow/underflow consequences, memory writes past 4095)
are Rust panics, modelled as `none`. -/
def execOpcode (s1 : Chip8) (opcode rnd : Nat) : Option Chip8 :=
  let nnn := opcode % 4096
  let xh := opcode / 4096
  let x := opcode / 256 % 16
  let y := opcode / 16 % 16
  let kk := opcode % 256
  let n := opcode % 16
  if xh = 0 then
    if opcode = 0x00E0 then
      some s1.clear_display
    else if opcode = 0x00EE then
      if s1.reg_sp < 16 then
        some { s1 with
          reg_pc := s1.stack s1.reg_sp % 65536,
          reg_sp := (s1.reg_sp + 65535) % 65536 }
      else none
    else some s1
  else if xh = 1 then
    some { s1 with reg_pc := nnn }
  else if xh = 2 then
    let sp := (s1.reg_sp + 1) % 65536
    if sp < 16 then
      some { s1 with reg_sp := sp, stack := upd s1.stack sp s1.reg_pc, reg_pc := nnn }
    else none
  else if xh = 3 then
    some (if s1.reg_v x % 256 = kk then { s1 with reg_pc := (s1.reg_pc + 2) % 65536 } else s1)
  else if xh = 4 then
    some (if s1.reg_v x % 256 ≠ kk then { s1 with reg_pc := (s1.reg_pc + 2) % 65536 } else s1)
  else if xh = 5 then
    some (if n = 0 ∧ s1.reg_v x % 256 = s1.reg_v y % 256 then
      { s1 with reg_pc := (s1.reg_pc + 2) % 65536 } else s1)
  else if xh = 6 then
    some { s1 with reg_v := upd s1.reg_v x kk }
  else if xh = 7 then
    some { s1 with reg_v := upd s1.reg_v x ((s1.reg_v x % 256 + kk) % 256) }
  else if xh = 8 then
    if n = 0 then
      some { s1 with reg_v := upd s1.reg_v x (s1.reg_v y % 256) }
    else if n = 1 then
      some { s1 with reg_v := upd s1.reg_v x (Nat.lor (s1.reg_v x % 256) (s1.reg_v y % 256)) }
    else if n = 2 then
      some { s1 with reg_v := upd s1.reg_v x (Nat.land (s1.reg_v x % 256) (s1.reg_v y % 256)) }
    else if n = 3 then
      some { s1 with reg_v := upd s1.reg_v x (Nat.xor (s1.reg_v x % 256) (s1.reg_v y % 256)) }
    else if n = 4 then
      let r1 := upd s1.reg_v x ((s1.reg_v x % 256 + s1.reg_v y % 256) % 256)
      let flag := if 255 < s1.reg_v x % 256 + s1.reg_v y % 256 then 1 else 0
      some { s1 with reg_v := upd r1 15 flag }
    else if n = 5 then
      let r1 := upd s1.reg_v 15 (if s1.reg_v x % 256 < s1.reg_v y % 256 then 0 else 1)
      some { s1 with reg_v := upd r1 x ((r1 x % 256 + 256 - r1 y % 256) % 256) }
    else if n = 6 then
      if s1.shift_using_vy = false then
        let r1 := upd s1.reg_v 15 (s1.reg_v x % 256 % 2)
        some { s1 with reg_v := upd r1 x (r1 x % 256 / 2) }
      else
        let r1 := upd s1.reg_v 15 (s1.reg_v y % 256 % 2)
        some { s1 with reg_v := upd r1 x (r1 y % 256 / 2) }
    else if n = 7 then
      let r1 := upd s1.reg_v 15 (if s1.reg_v y % 256 < s1.reg_v x % 256 then 0 else 1)
      some { s1 with reg_v := upd r1 x ((r1 y % 256 + 256 - r1 x % 256) % 256) }
    else if n = 14 then
      if s1.shift_using_vy = false then
        let r1 := upd s1.reg_v 15 (s1.reg_v x % 256 / 128)
        some { s1 with reg_v := upd r1 x (r1 x % 256 * 2 % 256) }
      else
        let r1 := upd s1.reg_v 15 (s1.reg_v y % 256 / 128)
        some { s1 with reg_v := upd r1 x (r1 y % 256 * 2 % 256) }
    else some s1
  else if xh = 9 then
    some (if n = 0 ∧ s1.reg_v x % 256 ≠ s1.reg_v y % 256 then
      { s1 with reg_pc := (s1.reg_pc + 2) % 65536 } else s1)
  else if xh = 10 then
    some { s1 with reg_i := nnn }
  else if xh = 11 then
    some { s1 with reg_pc := (nnn + s1.reg_v 0 % 256) % 65536 }
  else if xh = 12 then
    some { s1 with reg_v := upd s1.reg_v x (Nat.land (rnd % 256) kk) }
  else if xh = 13 then
    match drawRows s1.memory s1.reg_i x y 0 n (upd s1.reg_v 15 0) s1.display with
    | some p => some { s1 with reg_v := p.1, display := p.2 }
    | none => none
  else if xh = 14 then
    if kk = 0x9E then
      some (if s1.key_pressed % 256 = s1.reg_v x % 256 then
        { s1 with reg_pc := (s1.reg_pc + 2) % 65536 } else s1)
    else if kk = 0xA1 then
      some (if s1.key_pressed % 256 ≠ s1.reg_v x % 256 then
        { s1 with reg_pc := (s1.reg_pc + 2) % 65536 } else s1)
    else some s1
  else if xh = 15 then
    if kk = 0x07 then
      some { s1 with reg_v := upd s1.reg_v x (s1.reg_dt % 256) }
    else if kk = 0x0A then
      if s1.key_pressed % 256 ≠ 0xff then
        some { s1 with reg_v := upd s1.reg_v x (s1.key_pressed % 256) }
      else
        some { s1 with reg_pc := (s1.reg_pc + 65534) % 65536 }
    else if kk = 0x15 then
      some { s1 with reg_dt := s1.reg_v x % 256 }
    else if kk = 0x18 then
      some { s1 with reg_st := s1.reg_v x % 256 }
    else if kk = 0x1E then
      let add := (s1.reg_i + s1.reg_v x % 256) % 65536
      some { s1 with
        reg_v := upd s1.reg_v 15 (if 4095 < add then 1 else 0),
        reg_i := add % 4096 }
    else if kk = 0x29 then
      some { s1 with reg_i := s1.reg_v x % 256 * 5 % 256 % 4096 }
    else if kk = 0x33 then
      if s1.reg_i + 2 < 4096 then
        let bcd := s1.reg_v x % 256
        let mem3 := upd (upd (upd s1.memory s1.reg_i (bcd / 100 % 10))
          (s1.reg_i + 1) (bcd / 10 % 10)) (s1.reg_i + 2) (bcd % 10)
        some { s1 with memory := mem3 }
      else none
    else if kk = 0x55 then
      if s1.reg_i + x < 4096 then
        let mem2 := storeRegs s1.reg_v s1.reg_i s1.memory (x + 1)
        if s1.increment_i_on_ld then
          some { s1 with memory := mem2, reg_i := (s1.reg_i + (x + 1)) % 65536 }
        else
          some { s1 with memory := mem2 }
      else none
    else if kk = 0x65 then
      if s1.reg_i + x < 4096 then
        let rv2 := loadRegs s1.memory s1.reg_i s1.reg_v (x + 1)
        if s1.increment_i_on_ld then
          some { s1 with reg_v := rv2, reg_i := (s1.reg_i + (x + 1)) % 65536 }
        else
          some { s1 with reg_v := rv2 }
      else none
    else some s1
  else some s1

/-- `Chip8::step`: fetches the big-endian 2-byte instruction at the program
counter (a fetch touching an address at or above 4096 panics, `none`),
advances the counter by 2, then dispatches on the opcode. -/
def Chip8.step (s : Chip8) (rnd : Nat) : Option Chip8 :=
  if s.reg_pc + 1 < 4096 then
    execOpcode { s with reg_pc := (s.reg_pc + 2) % 65536 }
      (s.memory s.reg_pc % 256 * 256 + s.memory (s.reg_pc + 1) % 256) rnd
  else none

/-- Test harness state: a freshly constructed machine with one 2-byte
instruction placed at the program counter (`0x200`) and a chosen register
file.  Used to evaluate the embedding on concrete inputs. -/
def testState (hi lo : Nat) (regs : Nat → Nat) : Chip8 :=
  { Chip8.new with
    memory := fun i => if i = 512 then hi else if i = 513 then lo else Chip8.new.memory i,
    reg_v := regs }

/-! Generic lemmas about the embedding. -/

theorem upd_self (f : Nat → Nat) (i v : Nat) : upd f i v i = v := by
  simp [upd]

theorem upd_ne (f : Nat → Nat) (i v j : Nat) (h : j ≠ i) : upd f i v j = f j := by
  simp [upd, h]

theorem Chip8.step_eq (s : Chip8) (rnd : Nat) (h : s.reg_pc + 1 < 4096) :
    s.step rnd = execOpcode { s with reg_pc := (s.reg_pc + 2) % 65536 }
      (s.memory s.reg_pc % 256 * 256 + s.memory (s.reg_pc + 1) % 256) rnd := by
  unfold Chip8.step
  rw [if_pos h]

/-- Reduction of the dispatch on an `8xy4` (`ADD Vx, Vy`) opcode. -/
theorem exec_add (t : Chip8) (rnd x y : Nat) (hx : x < 16) (hy : y < 16) :
    execOpcode t ((128 + x) * 256 + (16 * y + 4)) rnd =
      some { t with reg_v := upd (upd t.reg_v x ((t.reg_v x % 256 + t.reg_v y % 256) % 256)) 15 (if 255 < t.reg_v x % 256 + t.reg_v y % 256 then 1 else 0) } := by
  have h1 : ((128 + x) * 256 + (16 * y + 4)) / 4096 = 8 := by omega
  have h2 : ((128 + x) * 256 + (16 * y + 4)) / 256 % 16 = x := by omega
  have h3 : ((128 + x) * 256 + (16 * y + 4)) / 16 % 16 = y := by omega
  have h4 : ((128 + x) * 256 + (16 * y + 4)) % 16 = 4 := by omega
  simp only [execOpcode, h1, h2, h3, h4]
  norm_num

/-- Reduction of the dispatch on an `8xy5` (`SUB Vx, Vy`) opcode: the flag is
written first, then the subtraction re-reads both registers. -/
theorem exec_sub (t : Chip8) (rnd x y : Nat) (hx : x < 16) (hy : y < 16) :
    execOpcode t ((128 + x) * 256 + (16 * y + 5)) rnd =
      some { t with reg_v := upd (upd t.reg_v 15 (if t.reg_v x % 256 < t.reg_v y % 256 then 0 else 1)) x ((upd t.reg_v 15 (if t.reg_v x % 256 < t.reg_v y % 256 then 0 else 1) x % 256 + 256 - upd t.reg_v 15 (if t.reg_v x % 256 < t.reg_v y % 256 then 0 else 1) y % 256) % 256) } := by
  have h1 : ((128 + x) * 256 + (16 * y + 5)) / 4096 = 8 := by omega
  have h2 : ((128 + x) * 256 + (16 * y + 5)) / 256 % 16 = x := by omega
  have h3 : ((128 + x) * 256 + (16 * y + 5)) / 16 % 16 = y := by omega
  have h4 : ((128 + x) * 256 + (16 * y + 5)) % 16 = 5 := by omega
  simp only [execOpcode, h1, h2, h3, h4]
  norm_num

/-- Reduction of the dispatch on an `8xy7` (`SUBN Vx, Vy`) opcode. -/
theorem exec_subn (t : Chip8) (rnd x y : Nat) (hx : x < 16) (hy : y < 16) :
    execOpcode t ((128 + x) * 256 + (16 * y + 7)) rnd =
      some { t with reg_v := upd (upd t.reg_v 15 (if t.reg_v y % 256 < t.reg_v x % 256 then 0 else 1)) x ((upd t.reg_v 15 (if t.reg_v y % 256 < t.reg_v x % 256 then 0 else 1) y % 256 + 256 - upd t.reg_v 15 (if t.reg_v y % 256 < t.reg_v x % 256 then 0 else 1) x % 256) % 256) } := by
  have h1 : ((128 + x) * 256 + (16 * y + 7)) / 4096 = 8 := by omega
  have h2 : ((128 + x) * 256 + (16 * y + 7)) / 256 % 16 = x := by omega
  have h3 : ((128 + x) * 256 + (16 * y + 7)) / 16 % 16 = y := by omega
  have h4 : ((128 + x) * 256 + (16 * y + 7)) % 16 = 7 := by omega
  simp only [execOpcode, h1, h2, h3, h4]
  norm_num

/-- Reduction of the dispatch on an `8xy6` (`SHR Vx`) opcode with the
shift-uses-secondary-register quirk disabled. -/
theorem exec_shr_vx (t : Chip8) (rnd x y : Nat) (hx : x < 16) (hy : y < 16)
    (hq : t.shift_using_vy = false) :
    execOpcode t ((128 + x) * 256 + (16 * y + 6)) rnd =
      some { t with reg_v := upd (upd t.reg_v 15 (t.reg_v x % 256 % 2)) x (upd t.reg_v 15 (t.reg_v x % 256 % 2) x % 256 / 2) } := by
  have h1 : ((128 + x) * 256 + (16 * y + 6)) / 4096 = 8 := by omega
  have h2 : ((128 + x) * 256 + (16 * y + 6)) / 256 % 16 = x := by omega
  have h3 : ((128 + x) * 256 + (16 * y + 6)) / 16 % 16 = y := by omega
  have h4 : ((128 + x) * 256 + (16 * y + 6)) % 16 = 6 := by omega
  simp only [execOpcode, h1, h2, h3, h4, hq]
  norm_num

/-- Reduction of the dispatch on an `8xy6` (`SHR Vx, Vy`) opcode with the
shift-uses-secondary-register quirk enabled. -/
theorem exec_shr_vy (t : Chip8) (rnd x y : Nat) (hx : x < 16) (hy : y < 16)
    (hq : t.shift_using_vy = true) :
    execOpcode t ((128 + x) * 256 + (16 * y + 6)) rnd =
      some { t with reg_v := upd (upd t.reg_v 15 (t.reg_v y % 256 % 2)) x (upd t.reg_v 15 (t.reg_v y % 256 % 2) y % 256 / 2) } := by
  have h1 : ((128 + x) * 256 + (16 * y + 6)) / 4096 = 8 := by omega
  have h2 : ((128 + x) * 256 + (16 * y + 6)) / 256 % 16 = x := by omega
  have h3 : ((128 + x) * 256 + (16 * y + 6)) / 16 % 16 = y := by omega
  have h4 : ((128 + x) * 256 + (16 * y + 6)) % 16 = 6 := by omega
  simp only [execOpcode, h1, h2, h3, h4, hq]
  norm_num

/-- Reduction of the dispatch on an `8xyE` (`SHL Vx`) opcode with the
shift-uses-secondary-register quirk disabled. -/
theorem exec_shl_vx (t : Chip8) (rnd x y : Nat) (hx : x < 16) (hy : y < 16)
    (hq : t.shift_using_vy = false) :
    execOpcode t ((128 + x) * 256 + (16 * y + 14)) rnd =
      some { t with reg_v := upd (upd t.reg_v 15 (t.reg_v x % 256 / 128)) x (upd t.reg_v 15 (t.reg_v x % 256 / 128) x % 256 * 2 % 256) } := by
  have h1 : ((128 + x) * 256 + (16 * y + 14)) / 4096 = 8 := by omega
  have h2 : ((128 + x) * 256 + (16 * y + 14)) / 256 % 16 = x := by omega
  have h3 : ((128 + x) * 256 + (16 * y + 14)) / 16 % 16 = y := by omega
  have h4 : ((128 + x) * 256 + (16 * y + 14)) % 16 = 14 := by omega
  simp only [execOpcode, h1, h2, h3, h4, hq]
  norm_num

/-- Reduction of the dispatch on an `8xyE` (`SHL Vx, Vy`) opcode with the
shift-uses-secondary-register quirk enabled. -/
theorem exec_shl_vy (t : Chip8) (rnd x y : Nat) (hx : x < 16) (hy : y < 16)
    (hq : t.shift_using_vy = true) :
    execOpcode t ((128 + x) * 256 + (16 * y + 14)) rnd =
      some { t with reg_v := upd (upd t.reg_v 15 (t.reg_v y % 256 / 128)) x (upd t.reg_v 15 (t.reg_v y % 256 / 128) y % 256 * 2 % 256) } := by
  have h1 : ((128 + x) * 256 + (16 * y + 14)) / 4096 = 8 := by omega
  have h2 : ((128 + x) * 256 + (16 * y + 14)) / 256 % 16 = x := by omega
  have h3 : ((128 + x) * 256 + (16 * y + 14)) / 16 % 16 = y := by omega
  have h4 : ((128 + x) * 256 + (16 * y + 14)) % 16 = 14 := by omega
  simp only [execOpcode, h1, h2, h3, h4, hq]
  norm_num

/-- C2 (amended): for register indices other than the flag register,
`8xy4` sets `regX` to the 8-bit wrapped sum and then the flag to the carry
(1 iff the unsigned sum exceeds 255); `8xy5` sets the flag to 1 iff
`regX ≥ regY` and `regX` to the wrapped difference `regX - regY`; `8xy7`
sets the flag to 1 iff `regY ≥ regX` and `regX` to the wrapped difference
`regY - regX`.  For `8xy4` the destination index must differ from 15 (the
flag write happens after the sum write and overwrites it); for the two
subtract variants both indices must differ from 15 (the flag is written
before the operands are re-read). -/
theorem arith_flags_spec :
    (∀ (s : Chip8) (rnd x y : Nat), x < 16 → y < 16 → x ≠ 15 →
      s.reg_v x < 256 → s.reg_v y < 256 → s.reg_pc + 1 < 4096 →
      s.memory s.reg_pc % 256 = 128 + x →
      s.memory (s.reg_pc + 1) % 256 = 16 * y + 4 →
      ∃ s', s.step rnd = some s' ∧
        s'.reg_v x = (s.reg_v x + s.reg_v y) % 256 ∧
        s'.reg_v 15 = if 255 < s.reg_v x + s.reg_v y then 1 else 0) ∧
    (∀ (s : Chip8) (rnd x y : Nat), x < 16 → y < 16 → x ≠ 15 → y ≠ 15 →
      s.reg_v x < 256 → s.reg_v y < 256 → s.reg_pc + 1 < 4096 →
      s.memory s.reg_pc % 256 = 128 + x →
      s.memory (s.reg_pc + 1) % 256 = 16 * y + 5 →
      ∃ s', s.step rnd = some s' ∧
        s'.reg_v x = (s.reg_v x + 256 - s.reg_v y) % 256 ∧
        s'.reg_v 15 = if s.reg_v x < s.reg_v y then 0 else 1) ∧
    (∀ (s : Chip8) (rnd x y : Nat), x < 16 → y < 16 → x ≠ 15 → y ≠ 15 →
      s.reg_v x < 256 → s.reg_v y < 256 → s.reg_pc + 1 < 4096 →
      s.memory s.reg_pc % 256 = 128 + x →
      s.memory (s.reg_pc + 1) % 256 = 16 * y + 7 →
      ∃ s', s.step rnd = some s' ∧
        s'.reg_v x = (s.reg_v y + 256 - s.reg_v x) % 256 ∧
        s'.reg_v 15 = if s.reg_v y < s.reg_v x then 0 else 1) := by
  refine ⟨?_, ?_, ?_⟩
  · intro s rnd x y hx hy hx15 hvx hvy hpc hhi hlo
    rw [Chip8.step_eq s rnd hpc, hhi, hlo, exec_add _ rnd x y hx hy]
    refine ⟨_, rfl, ?_, ?_⟩
    · simp [upd, hx15, Nat.mod_eq_of_lt hvx, Nat.mod_eq_of_lt hvy]
    · simp [upd, Nat.mod_eq_of_lt hvx, Nat.mod_eq_of_lt hvy]
  · intro s rnd x y hx hy hx15 hy15 hvx hvy hpc hhi hlo
    rw [Chip8.step_eq s rnd hpc, hhi, hlo, exec_sub _ rnd x y hx hy]
    refine ⟨_, rfl, ?_, ?_⟩
    · simp [upd, hx15, hy15, Nat.mod_eq_of_lt hvx, Nat.mod_eq_of_lt hvy]
    · simp [upd, hx15, hy15, Ne.symm hx15, Ne.symm hy15,
        Nat.mod_eq_of_lt hvx, Nat.mod_eq_of_lt hvy]
  · intro s rnd x y hx hy hx15 hy15 hvx hvy hpc hhi hlo
    rw [Chip8.step_eq s rnd hpc, hhi, hlo, exec_subn _ rnd x y hx hy]
    refine ⟨_, rfl, ?_, ?_⟩
    · simp [upd, hx15, hy15, Nat.mod_eq_of_lt hvx, Nat.mod_eq_of_lt hvy]
    · simp [upd, hx15, hy15, Ne.symm hx15, Ne.symm hy15,
        Nat.mod_eq_of_lt hvx, Nat.mod_eq_of_lt hvy]

/-- C2 counterexample: with `x = 15` (explicitly included by the claim), the
`8F04` add writes the carry flag after the sum, so register 15 ends at the
carry value 0, not at the claimed sum `(5 + 3) % 256 = 8`. -/
theorem add_flag_alias_cex :
    (Chip8.step (testState 0x8F 0x04 (fun i => if i = 15 then 5 else if i = 0 then 3 else 0)) 0).map (fun t => t.reg_v 15) = some 0 ∧ (0 : Nat) ≠ (5 + 3) % 256 := by
  constructor
  · decide
  · decide

/-- C2 witness: the amended theorem applied at concrete states — an add with
carry (`200 + 100`), a subtract with borrow (`10 - 20`) and a reverse
subtract without borrow (`5 - 20` reversed). -/
theorem arith_flags_witness :
    (∃ s', (testState 0x81 0x24 (fun i => if i = 1 then 200 else if i = 2 then 100 else 0)).step 0 = some s' ∧ s'.reg_v 1 = (200 + 100) % 256 ∧ s'.reg_v 15 = 1) ∧
    (∃ s', (testState 0x83 0x45 (fun i => if i = 3 then 10 else if i = 4 then 20 else 0)).step 0 = some s' ∧ s'.reg_v 3 = (10 + 256 - 20) % 256 ∧ s'.reg_v 15 = 0) ∧
    (∃ s', (testState 0x85 0x67 (fun i => if i = 5 then 20 else if i = 6 then 5 else 0)).step 0 = some s' ∧ s'.reg_v 5 = (5 + 256 - 20) % 256 ∧ s'.reg_v 15 = 0) := by
  refine ⟨?_, ?_, ?_⟩
  · have h := arith_flags_spec.1 (testState 0x81 0x24 (fun i => if i = 1 then 200 else if i = 2 then 100 else 0)) 0 1 2
      (by decide) (by decide) (by decide) (by decide) (by decide) (by decide) (by decide) (by decide)
    simpa using h
  · have h := arith_flags_spec.2.1 (testState 0x83 0x45 (fun i => if i = 3 then 10 else if i = 4 then 20 else 0)) 0 3 4
      (by decide) (by decide) (by decide) (by decide) (by decide) (by decide) (by decide) (by decide) (by decide)
    simpa using h
  · have h := arith_flags_spec.2.2 (testState 0x85 0x67 (fun i => if i = 5 then 20 else if i = 6 then 5 else 0)) 0 5 6
      (by decide) (by decide) (by decide) (by decide) (by decide) (by decide) (by decide) (by decide) (by decide)
    simpa using h

/-- C3 (amended): with the shift-uses-secondary-register quirk disabled and
`x ≠ 15`, `8xy6` sets the flag to bit 0 of `regX` and `regX` to `regX >> 1`,
and `8xyE` sets the flag to bit 7 of `regX` and `regX` to `regX << 1 mod 256`;
with the quirk enabled and `x ≠ 15`, `y ≠ 15`, the flag captures the
corresponding shifted-out bit of `regY` and the shifted value of `regY` is
written into `regX`.  When the excluded index 15 is used, the flag write and
the operand read interleave and the stated semantics fail. -/
theorem shift_spec :
    (∀ (s : Chip8) (rnd x y : Nat), x < 16 → y < 16 → x ≠ 15 →
      s.shift_using_vy = false → s.reg_v x < 256 → s.reg_pc + 1 < 4096 →
      s.memory s.reg_pc % 256 = 128 + x →
      s.memory (s.reg_pc + 1) % 256 = 16 * y + 6 →
      ∃ s', s.step rnd = some s' ∧
        s'.reg_v x = s.reg_v x / 2 ∧ s'.reg_v 15 = s.reg_v x % 2) ∧
    (∀ (s : Chip8) (rnd x y : Nat), x < 16 → y < 16 → x ≠ 15 →
      s.shift_using_vy = false → s.reg_v x < 256 → s.reg_pc + 1 < 4096 →
      s.memory s.reg_pc % 256 = 128 + x →
      s.memory (s.reg_pc + 1) % 256 = 16 * y + 14 →
      ∃ s', s.step rnd = some s' ∧
        s'.reg_v x = s.reg_v x * 2 % 256 ∧ s'.reg_v 15 = s.reg_v x / 128) ∧
    (∀ (s : Chip8) (rnd x y : Nat), x < 16 → y < 16 → x ≠ 15 → y ≠ 15 →
      s.shift_using_vy = true → s.reg_v y < 256 → s.reg_pc + 1 < 4096 →
      s.memory s.reg_pc % 256 = 128 + x →
      s.memory (s.reg_pc + 1) % 256 = 16 * y + 6 →
      ∃ s', s.step rnd = some s' ∧
        s'.reg_v x = s.reg_v y / 2 ∧ s'.reg_v 15 = s.reg_v y % 2) ∧
    (∀ (s : Chip8) (rnd x y : Nat), x < 16 → y < 16 → x ≠ 15 → y ≠ 15 →
      s.shift_using_vy = true → s.reg_v y < 256 → s.reg_pc + 1 < 4096 →
      s.memory s.reg_pc % 256 = 128 + x →
      s.memory (s.reg_pc + 1) % 256 = 16 * y + 14 →
      ∃ s', s.step rnd = some s' ∧
        s'.reg_v x = s.reg_v y * 2 % 256 ∧ s'.reg_v 15 = s.reg_v y / 128) := by
  refine ⟨?_, ?_, ?_, ?_⟩
  · intro s rnd x y hx hy hx15 hq hvx hpc hhi hlo
    rw [Chip8.step_eq s rnd hpc, hhi, hlo, exec_shr_vx { s with reg_pc := (s.reg_pc + 2) % 65536 } rnd x y hx hy hq]
    refine ⟨_, rfl, ?_, ?_⟩
    · simp [upd, hx15, Ne.symm hx15, Nat.mod_eq_of_lt hvx]
    · simp [upd, hx15, Ne.symm hx15, Nat.mod_eq_of_lt hvx]
  · intro s rnd x y hx hy hx15 hq hvx hpc hhi hlo
    rw [Chip8.step_eq s rnd hpc, hhi, hlo, exec_shl_vx { s with reg_pc := (s.reg_pc + 2) % 65536 } rnd x y hx hy hq]
    refine ⟨_, rfl, ?_, ?_⟩
    · simp [upd, hx15, Ne.symm hx15, Nat.mod_eq_of_lt hvx]
    · simp [upd, hx15, Ne.symm hx15, Nat.mod_eq_of_lt hvx]
  · intro s rnd x y hx hy hx15 hy15 hq hvy hpc hhi hlo
    rw [Chip8.step_eq s rnd hpc, hhi, hlo, exec_shr_vy { s with reg_pc := (s.reg_pc + 2) % 65536 } rnd x y hx hy hq]
    refine ⟨_, rfl, ?_, ?_⟩
    · simp [upd, hx15, hy15, Ne.symm hx15, Ne.symm hy15, Nat.mod_eq_of_lt hvy]
    · simp [upd, hx15, hy15, Ne.symm hx15, Ne.symm hy15, Nat.mod_eq_of_lt hvy]
  · intro s rnd x y hx hy hx15 hy15 hq hvy hpc hhi hlo
    rw [Chip8.step_eq s rnd hpc, hhi, hlo, exec_shl_vy { s with reg_pc := (s.reg_pc + 2) % 65536 } rnd x y hx hy hq]
    refine ⟨_, rfl, ?_, ?_⟩
    · simp [upd, hx15, hy15, Ne.symm hx15, Ne.symm hy15, Nat.mod_eq_of_lt hvy]
    · simp [upd, hx15, hy15, Ne.symm hx15, Ne.symm hy15, Nat.mod_eq_of_lt hvy]

/-- C3 counterexample: for `x = 15` (included by the claim's "every register
index x (0-15)"), `8F06` with `reg15 = 3` and the quirk disabled first writes
the flag (`3 & 1 = 1`) into register 15 and then shifts that flag value,
leaving register 15 at `1 >> 1 = 0`, while the claim requires `regX = 1` and
`flag = 1`, i.e. register 15 ending at 1. -/
theorem shr_flag_alias_cex :
    (Chip8.step (testState 0x8F 0x06 (fun i => if i = 15 then 3 else 0)) 0).map (fun t => t.reg_v 15) = some 0 ∧ (0 : Nat) ≠ 1 := by
  constructor
  · decide
  · decide

/-- C3 witness: the amended theorem at concrete states — the claim's own
example `regX = 0b00000011` (quirk off, yields `regX = 1`, flag 1), a
left shift of `129` (quirk off), and both quirk-enabled variants. -/
theorem shift_witness :
    (∃ s', (testState 0x81 0x06 (fun i => if i = 1 then 3 else 0)).step 0 = some s' ∧ s'.reg_v 1 = 3 / 2 ∧ s'.reg_v 15 = 3 % 2) ∧
    (∃ s', (testState 0x81 0x0E (fun i => if i = 1 then 129 else 0)).step 0 = some s' ∧ s'.reg_v 1 = 129 * 2 % 256 ∧ s'.reg_v 15 = 129 / 128) ∧
    (∃ s', ({ testState 0x81 0x26 (fun i => if i = 2 then 5 else 0) with shift_using_vy := true }).step 0 = some s' ∧ s'.reg_v 1 = 5 / 2 ∧ s'.reg_v 15 = 5 % 2) ∧
    (∃ s', ({ testState 0x81 0x2E (fun i => if i = 2 then 200 else 0) with shift_using_vy := true }).step 0 = some s' ∧ s'.reg_v 1 = 200 * 2 % 256 ∧ s'.reg_v 15 = 200 / 128) := by
  refine ⟨?_, ?_, ?_, ?_⟩
  · have h := shift_spec.1 (testState 0x81 0x06 (fun i => if i = 1 then 3 else 0)) 0 1 0
      (by decide) (by decide) (by decide) (by decide) (by decide) (by decide) (by decide) (by decide)
    simpa using h
  · have h := shift_spec.2.1 (testState 0x81 0x0E (fun i => if i = 1 then 129 else 0)) 0 1 0
      (by decide) (by decide) (by decide) (by decide) (by decide) (by decide) (by decide) (by decide)
    simpa using h
  · have h := shift_spec.2.2.1 ({ testState 0x81 0x26 (fun i => if i = 2 then 5 else 0) with shift_using_vy := true }) 0 1 2
      (by decide) (by decide) (by decide) (by decide) (by decide) (by decide) (by decide) (by decide) (by decide)
    simpa using h
  · have h := shift_spec.2.2.2 ({ testState 0x81 0x2E (fun i => if i = 2 then 200 else 0) with shift_using_vy := true }) 0 1 2
      (by decide) (by decide) (by decide) (by decide) (by decide) (by decide) (by decide) (by decide) (by decide)
    simpa using h

/-- Reduction of the dispatch on an `Fx29` (`LD F, Vx`) opcode. -/
theorem exec_ldf (t : Chip8) (rnd x : Nat) (hx : x < 16) :
    execOpcode t ((240 + x) * 256 + 41) rnd =
      some { t with reg_i := t.reg_v x % 256 * 5 % 256 % 4096 } := by
  have h1 : ((240 + x) * 256 + 41) / 4096 = 15 := by omega
  have h2 : ((240 + x) * 256 + 41) / 256 % 16 = x := by omega
  have h5 : ((240 + x) * 256 + 41) % 256 = 41 := by omega
  simp only [execOpcode, h1, h2, h5]
  norm_num

/-- Reduction of the dispatch on an `Fx0A` (`LD Vx, K`) opcode. -/
theorem exec_waitkey (t : Chip8) (rnd x : Nat) (hx : x < 16) :
    execOpcode t ((240 + x) * 256 + 10) rnd =
      if t.key_pressed % 256 ≠ 255 then some { t with reg_v := upd t.reg_v x (t.key_pressed % 256) }
      else some { t with reg_pc := (t.reg_pc + 65534) % 65536 } := by
  have h1 : ((240 + x) * 256 + 10) / 4096 = 15 := by omega
  have h2 : ((240 + x) * 256 + 10) / 256 % 16 = x := by omega
  have h5 : ((240 + x) * 256 + 10) % 256 = 10 := by omega
  simp only [execOpcode, h1, h2, h5]
  norm_num

/-- Reduction of the dispatch on an `Ex9E` (`SKP Vx`) opcode. -/
theorem exec_skp (t : Chip8) (rnd x : Nat) (hx : x < 16) :
    execOpcode t ((224 + x) * 256 + 158) rnd =
      some (if t.key_pressed % 256 = t.reg_v x % 256 then { t with reg_pc := (t.reg_pc + 2) % 65536 } else t) := by
  have h1 : ((224 + x) * 256 + 158) / 4096 = 14 := by omega
  have h2 : ((224 + x) * 256 + 158) / 256 % 16 = x := by omega
  have h5 : ((224 + x) * 256 + 158) % 256 = 158 := by omega
  simp only [execOpcode, h1, h2, h5]
  norm_num

/-- C5 (amended): `Fx29` computes `regX * 5` in 8-bit (wrapping) arithmetic,
so the index register becomes `(regX * 5) mod 256`; the subsequent 12-bit
mask is a no-op on that value.  No other state changes besides the program
counter advance. -/
theorem glyph_index_spec (s : Chip8) (rnd x : Nat) (hx : x < 16)
    (hvx : s.reg_v x < 256) (hpc : s.reg_pc + 1 < 4096)
    (hhi : s.memory s.reg_pc % 256 = 240 + x)
    (hlo : s.memory (s.reg_pc + 1) % 256 = 41) :
    ∃ s', s.step rnd = some s' ∧
      s'.reg_i = s.reg_v x * 5 % 256 ∧
      s'.reg_pc = (s.reg_pc + 2) % 65536 ∧
      s'.reg_v = s.reg_v ∧ s'.memory = s.memory ∧ s'.display = s.display ∧
      s'.stack = s.stack ∧ s'.reg_sp = s.reg_sp ∧ s'.reg_dt = s.reg_dt ∧
      s'.reg_st = s.reg_st ∧ s'.key_pressed = s.key_pressed := by
  rw [Chip8.step_eq s rnd hpc, hhi, hlo, exec_ldf _ rnd x hx]
  refine ⟨_, rfl, ?_, rfl, rfl, rfl, rfl, rfl, rfl, rfl, rfl, rfl⟩
  show s.reg_v x % 256 * 5 % 256 % 4096 = s.reg_v x * 5 % 256
  rw [Nat.mod_eq_of_lt hvx]
  omega

/-- C5 counterexample: for `regX = 52` the product `52 * 5 = 260` wraps in
the `u8` multiply to 4, while the claim's value `260` masked to 12 bits is
`260`: the index register ends at 4, not 260. -/
theorem glyph_index_overflow_cex :
    (Chip8.step (testState 0xF0 0x29 (fun i => if i = 0 then 52 else 0)) 0).map (fun t => t.reg_i) = some 4 ∧ (4 : Nat) ≠ 52 * 5 % 4096 := by
  constructor
  · decide
  · decide

/-- C5 witness: the amended theorem at the overflowing input `regX = 52`. -/
theorem glyph_index_witness :
    ∃ s', (testState 0xF0 0x29 (fun i => if i = 0 then 52 else 0)).step 0 = some s' ∧ s'.reg_i = 4 ∧ s'.reg_pc = 514 := by
  obtain ⟨s', h1, h2, h3, _⟩ := glyph_index_spec (testState 0xF0 0x29 (fun i => if i = 0 then 52 else 0)) 0 0
    (by decide) (by decide) (by decide) (by decide) (by decide)
  refine ⟨s', h1, ?_, ?_⟩
  · simpa [testState] using h2
  · simpa [testState, Chip8.new] using h3

/-- C6 (confirmed): on an `Fx0A` instruction with the no-key sentinel `0xff`
latched, `step` returns the state unchanged (the fetch increment is undone by
the rewind), so arbitrarily many repeated calls leave the machine fixed; once
a key value 0-15 is latched, `step` stores it in `regX` and advances the
program counter by exactly 2. -/
theorem wait_key_spec :
    (∀ (s : Chip8) (rnd x : Nat), x < 16 → s.key_pressed = 255 →
      s.reg_pc + 1 < 4096 →
      s.memory s.reg_pc % 256 = 240 + x →
      s.memory (s.reg_pc + 1) % 256 = 10 →
      s.step rnd = some s) ∧
    (∀ (s : Chip8) (rnd x k : Nat), x < 16 → k < 16 → s.key_pressed = k →
      s.reg_pc + 1 < 4096 →
      s.memory s.reg_pc % 256 = 240 + x →
      s.memory (s.reg_pc + 1) % 256 = 10 →
      ∃ s', s.step rnd = some s' ∧ s'.reg_v x = k ∧
        s'.reg_pc = s.reg_pc + 2 ∧ (∀ i, i ≠ x → s'.reg_v i = s.reg_v i)) := by
  constructor
  · intro s rnd x hx hkey hpc hhi hlo
    rw [Chip8.step_eq s rnd hpc, hhi, hlo, exec_waitkey _ rnd x hx]
    rw [if_neg (by simp [hkey])]
    have hpc2 : ((s.reg_pc + 2) % 65536 + 65534) % 65536 = s.reg_pc := by omega
    simp only [hpc2]
  · intro s rnd x k hx hk hkey hpc hhi hlo
    rw [Chip8.step_eq s rnd hpc, hhi, hlo, exec_waitkey _ rnd x hx]
    rw [if_pos (by simp [hkey]; omega)]
    refine ⟨_, rfl, ?_, ?_, ?_⟩
    · simp [upd, hkey]
      omega
    · simp only []
      omega
    · intro i hi
      simp [upd, hi]

/-- C6 witness: the theorem at concrete states — a busy-wait with the
sentinel latched, and a completed wait with key 7 latched. -/
theorem wait_key_witness :
    ({ testState 0xF1 0x0A (fun _ => 0) with key_pressed := 255 }.step 0 = some { testState 0xF1 0x0A (fun _ => 0) with key_pressed := 255 }) ∧
    (∃ s', { testState 0xF1 0x0A (fun _ => 0) with key_pressed := 7 }.step 0 = some s' ∧ s'.reg_v 1 = 7 ∧ s'.reg_pc = 514) := by
  constructor
  · exact wait_key_spec.1 { testState 0xF1 0x0A (fun _ => 0) with key_pressed := 255 } 0 1
      (by decide) (by decide) (by decide) (by decide) (by decide)
  · obtain ⟨s', h1, h2, h3, _⟩ := wait_key_spec.2 { testState 0xF1 0x0A (fun _ => 0) with key_pressed := 7 } 0 1 7
      (by decide) (by decide) (by decide) (by decide) (by decide) (by decide)
    exact ⟨s', h1, h2, by simpa [testState, Chip8.new] using h3⟩

/-- C10 (confirmed): `new` leaves the input latch at 0 — a valid key value,
not the no-key sentinel `0xff`.  Consequently, in a state with latch 0, an
`Ex9E` skip with `regX = 0` takes the skip (program counter advances by 4),
and an `Fx0A` wait does not busy-wait but immediately stores 0 into `regX`
and advances by 2. -/
theorem initial_key_latch_spec :
    Chip8.new.key_pressed = 0 ∧
    (∀ (s : Chip8) (rnd x : Nat), x < 16 → s.key_pressed = 0 → s.reg_v x = 0 →
      s.reg_pc + 1 < 4096 →
      s.memory s.reg_pc % 256 = 224 + x →
      s.memory (s.reg_pc + 1) % 256 = 158 →
      ∃ s', s.step rnd = some s' ∧ s'.reg_pc = s.reg_pc + 4) ∧
    (∀ (s : Chip8) (rnd x : Nat), x < 16 → s.key_pressed = 0 →
      s.reg_pc + 1 < 4096 →
      s.memory s.reg_pc % 256 = 240 + x →
      s.memory (s.reg_pc + 1) % 256 = 10 →
      ∃ s', s.step rnd = some s' ∧ s'.reg_v x = 0 ∧ s'.reg_pc = s.reg_pc + 2) := by
  refine ⟨rfl, ?_, ?_⟩
  · intro s rnd x hx hkey hvx hpc hhi hlo
    rw [Chip8.step_eq s rnd hpc, hhi, hlo, exec_skp _ rnd x hx]
    rw [if_pos (by simp [hkey, hvx])]
    refine ⟨_, rfl, ?_⟩
    simp only []
    omega
  · intro s rnd x hx hkey hpc hhi hlo
    rw [Chip8.step_eq s rnd hpc, hhi, hlo, exec_waitkey _ rnd x hx]
    rw [if_pos (by simp [hkey])]
    refine ⟨_, rfl, ?_, ?_⟩
    · simp [upd, hkey]
    · simp only []
      omega

/-- C10 witness: the theorem at concrete states built over `new` (latch 0):
the skip is taken and the wait completes immediately with key 0. -/
theorem initial_key_latch_witness :
    Chip8.new.key_pressed = 0 ∧
    (∃ s', (testState 0xE1 0x9E (fun _ => 0)).step 0 = some s' ∧ s'.reg_pc = 516) ∧
    (∃ s', (testState 0xF2 0x0A (fun _ => 0)).step 0 = some s' ∧ s'.reg_v 2 = 0 ∧ s'.reg_pc = 514) := by
  refine ⟨initial_key_latch_spec.1, ?_, ?_⟩
  · obtain ⟨s', h1, h2⟩ := initial_key_latch_spec.2.1 (testState 0xE1 0x9E (fun _ => 0)) 0 1
      (by decide) (by decide) (by decide) (by decide) (by decide) (by decide)
    exact ⟨s', h1, by simpa [testState, Chip8.new] using h2⟩
  · obtain ⟨s', h1, h2, h3⟩ := initial_key_latch_spec.2.2 (testState 0xF2 0x0A (fun _ => 0)) 0 2
      (by decide) (by decide) (by decide) (by decide) (by decide)
    exact ⟨s', h1, h2, by simpa [testState, Chip8.new] using h3⟩

/-- C4 counterexample: a 3585-byte program does not produce an explicit
too-large error result — `boot_rom` slices `memory[512 .. 512 + 3585]` out
of bounds and panics (modelled: `none`), with no error value surfaced. -/
theorem load_too_large_cex :
    Chip8.boot_rom Chip8.new (List.replicate 3585 0) = none := by
  unfold Chip8.boot_rom
  rw [if_neg (by rw [List.length_replicate]; omega)]

/-- C4 (amended): for every input longer than `4096 - 0x200 = 3584` bytes,
`boot_rom` panics on an out-of-bounds slice (modelled: returns `none`);
there is no `LoadError::TooLarge` value and no error result is returned to
the caller. -/
theorem load_too_large_panics (s : Chip8) (p : List Nat) (h : 3584 < p.length) :
    s.boot_rom p = none := by
  unfold Chip8.boot_rom
  rw [if_neg (by omega)]

/-- C4 witness: the amended theorem at a concrete 3585-byte input. -/
theorem load_too_large_witness :
    3584 < (List.replicate 3585 (0 : Nat)).length ∧
      Chip8.boot_rom Chip8.new (List.replicate 3585 0) = none := by
  constructor
  · rw [List.length_replicate]
    omega
  · exact load_too_large_panics Chip8.new (List.replicate 3585 0) (by rw [List.length_replicate]; omega)

/-- C8 (confirmed): a successful `boot_rom` places the program bytes verbatim
at memory `0x200 ..` and, from any prior state, resets all 16 registers, the
16 stack slots and the stack pointer, the index register, both timers, the
program counter (to `0x200`), the input latch (to the no-key sentinel
`0xff`), and clears every framebuffer pixel. -/
theorem load_roundtrip_spec (s : Chip8) (p : List Nat) (hlen : p.length ≤ 3584) :
    ∃ t, s.boot_rom p = some t ∧
      (∀ k, k < p.length → t.memory (512 + k) = p.getD k 0) ∧
      (∀ i, i < 16 → t.reg_v i = 0) ∧ (∀ i, i < 16 → t.stack i = 0) ∧
      t.reg_sp = 0 ∧ t.reg_i = 0 ∧ t.reg_dt = 0 ∧ t.reg_st = 0 ∧
      t.reg_pc = 512 ∧ t.key_pressed = 255 ∧ (∀ off, t.display off = 0) := by
  unfold Chip8.boot_rom
  rw [if_pos (by omega)]
  refine ⟨_, rfl, ?_, ?_, ?_, rfl, rfl, rfl, rfl, rfl, rfl, ?_⟩
  · intro k hk
    show (if 512 ≤ 512 + k ∧ 512 + k < 512 + p.length then p.getD (512 + k - 512) 0 else s.memory (512 + k)) = p.getD k 0
    have hc : 512 ≤ 512 + k ∧ 512 + k < 512 + p.length := ⟨by omega, by omega⟩
    rw [if_pos hc]
    congr 1
    omega
  · intro i hi
    show (if i < 16 then 0 else s.reg_v i) = 0
    rw [if_pos hi]
  · intro i hi
    show (if i < 16 then 0 else s.stack i) = 0
    rw [if_pos hi]
  · intro off
    rfl

/-- C8 witness: the theorem at a concrete 2-byte program loaded over a dirty
state (`new` with a register and a pixel set). -/
theorem load_roundtrip_witness :
    ∃ t : Chip8, Chip8.boot_rom { Chip8.new with reg_v := fun _ => 9, display := fun _ => 1 } [171, 205] = some t ∧
      t.memory 512 = 171 ∧ t.memory 513 = 205 ∧ t.reg_v 0 = 0 ∧
      t.reg_pc = 512 ∧ t.key_pressed = 255 ∧ t.display 0 = 0 := by
  obtain ⟨t, h1, hmem, hreg, _, _, _, _, _, hpc, hkey, hdisp⟩ :=
    load_roundtrip_spec { Chip8.new with reg_v := fun _ => 9, display := fun _ => 1 } [171, 205] (by decide)
  refine ⟨t, h1, ?_, ?_, hreg 0 (by decide), hpc, hkey, hdisp 0⟩
  · simpa using hmem 0 (by decide)
  · simpa using hmem 1 (by decide)

/-- C9 counterexample: a state about to execute `CALL 0x100` with the stack
pointer at 15 makes `step` write `stack[16]`, out of bounds — a panic
(modelled: `none`), terminating the process instead of surfacing an error. -/
theorem call_overflow_cex :
    Chip8.step { testState 0x21 0x00 (fun _ => 0) with reg_sp := 15 } 0 = none := by
  rfl

/-- C9 (amended): `step` applies no error-surfacing policy to the
out-of-architecture stack conditions.  A `2nnn` call executed with stack
pointer 15 indexes `stack[16]` and panics (modelled: `none`); a `00EE`
return executed with stack pointer 0 silently wraps the pointer to `0xFFFF`
(so a later return indexes out of bounds), returning no error either. -/
theorem stack_policy_spec :
    (∀ (s : Chip8) (rnd a b : Nat), a < 16 → b < 256 → s.reg_sp = 15 →
      s.reg_pc + 1 < 4096 →
      s.memory s.reg_pc % 256 = 32 + a →
      s.memory (s.reg_pc + 1) % 256 = b →
      s.step rnd = none) ∧
    (∀ (s : Chip8) (rnd : Nat), s.reg_sp = 0 →
      s.reg_pc + 1 < 4096 →
      s.memory s.reg_pc % 256 = 0 →
      s.memory (s.reg_pc + 1) % 256 = 238 →
      ∃ s', s.step rnd = some s' ∧ s'.reg_sp = 65535 ∧ s'.reg_pc = s.stack 0 % 65536) := by
  constructor
  · intro s rnd a b ha hb hsp hpc hhi hlo
    rw [Chip8.step_eq s rnd hpc, hhi, hlo]
    have h1 : ((32 + a) * 256 + b) / 4096 = 2 := by omega
    simp only [execOpcode, h1]
    norm_num [hsp]
  · intro s rnd hsp hpc hhi hlo
    rw [Chip8.step_eq s rnd hpc, hhi, hlo]
    simp only [execOpcode, hsp]
    norm_num

/-- C9 witness: the amended theorem at concrete states — the 17th-level call
panics, the underflowing return wraps the stack pointer to 65535. -/
theorem stack_policy_witness :
    (Chip8.step { testState 0x22 0x34 (fun _ => 0) with reg_sp := 15 } 0 = none) ∧
    (∃ s', (testState 0x00 0xEE (fun _ => 0)).step 0 = some s' ∧ s'.reg_sp = 65535 ∧ s'.reg_pc = 0) := by
  constructor
  · exact stack_policy_spec.1 { testState 0x22 0x34 (fun _ => 0) with reg_sp := 15 } 0 2 52
      (by decide) (by decide) (by decide) (by decide) (by decide) (by decide)
  · obtain ⟨s', h1, h2, h3⟩ := stack_policy_spec.2 (testState 0x00 0xEE (fun _ => 0)) 0
      (by decide) (by decide) (by decide) (by decide)
    exact ⟨s', h1, h2, by simpa [testState, Chip8.new] using h3⟩

/-- C7: the 12-bit index-register invariant is broken by the auto-increment
quirk of `Fx55`/`Fx65`: from a freshly loaded machine running
`AFFF` (index := 0xFFF) then `F055` with the increment quirk enabled, the
index register reaches `0x1000 = 4096 > 0xFFF` — the advance by `regX + 1`
is never masked to 12 bits, contradicting the source's own doc comment that
only 12 bits of the index register are used (and enabling a later
out-of-bounds memory panic). -/
theorem index_mask_invariant_bug :
    ((({ Chip8.new with increment_i_on_ld := true }.boot_rom [0xAF, 0xFF, 0xF0, 0x55]).bind (fun t : Chip8 => t.step 0)).bind (fun t : Chip8 => t.step 0)).map (fun t : Chip8 => t.reg_i) = some 4096 ∧ ¬(4096 ≤ 4095) := by
  constructor
  · decide
  · decide

/-- Bit `e` of a byte is bit `e + 1` of the byte shifted left once (the
shifted-out top bit is discarded by the `u8` wrap). -/
theorem sprite_shift_bit (e s : Nat) (he : e ≤ 6) :
    s * 2 % 256 / 2 ^ (e + 1) % 2 = s / 2 ^ e % 2 := by
  interval_cases e <;> norm_num <;> omega

theorem upd_le_one (disp : Nat → Nat) (i v : Nat) (hd : ∀ off, disp off ≤ 1)
    (hv : v ≤ 1) : ∀ off, upd disp i v off ≤ 1 := by
  intro off
  by_cases h : off = i
  · rw [h, upd_self]; exact hv
  · rw [upd_ne _ _ _ _ h]; exact hd off

theorem drawBits_unfold (x row f fuel sprite : Nat) (regv disp : Nat → Nat) :
    drawBits x row f (fuel + 1) sprite regv disp =
      (if sprite / 128 % 2 = 1 then
        if disp (row * 64 + (regv x % 256 + f) % 256 % 64) ≠ 0 then
          drawBits x row (f + 1) fuel (sprite * 2 % 256) (upd regv 15 1)
            (upd disp (row * 64 + (regv x % 256 + f) % 256 % 64) 0)
        else
          drawBits x row (f + 1) fuel (sprite * 2 % 256) regv
            (upd disp (row * 64 + (regv x % 256 + f) % 256 % 64) 1)
      else drawBits x row (f + 1) fuel (sprite * 2 % 256) regv disp) := by
  rw [drawBits]

theorem drawBits_spec (x row : Nat) (hx15 : x ≠ 15) :
    ∀ fuel f sprite regv disp, f + fuel ≤ 8 →
      (∀ off, disp off ≤ 1) →
      (∀ i, i ≠ 15 → (drawBits x row f fuel sprite regv disp).1 i = regv i) ∧
      ((∃ g, g < fuel ∧ sprite / 2 ^ (7 - g) % 2 = 1 ∧
          disp (row * 64 + (regv x % 256 + (f + g)) % 256 % 64) = 1) →
        (drawBits x row f fuel sprite regv disp).1 15 = 1) ∧
      (¬(∃ g, g < fuel ∧ sprite / 2 ^ (7 - g) % 2 = 1 ∧
          disp (row * 64 + (regv x % 256 + (f + g)) % 256 % 64) = 1) →
        (drawBits x row f fuel sprite regv disp).1 15 = regv 15) ∧
      (∀ g, g < fuel →
        (drawBits x row f fuel sprite regv disp).2 (row * 64 + (regv x % 256 + (f + g)) % 256 % 64) =
          (disp (row * 64 + (regv x % 256 + (f + g)) % 256 % 64) + sprite / 2 ^ (7 - g) % 2) % 2) ∧
      (∀ off, (∀ g, g < fuel → off ≠ row * 64 + (regv x % 256 + (f + g)) % 256 % 64) →
        (drawBits x row f fuel sprite regv disp).2 off = disp off) ∧
      (∀ off, (drawBits x row f fuel sprite regv disp).2 off ≤ 1) := by
  intro fuel
  induction fuel with
  | zero =>
    intro f sprite regv disp hf hd
    refine ⟨fun i _ => rfl, ?_, fun _ => rfl, ?_, fun off _ => rfl, hd⟩
    · rintro ⟨g, hg, -, -⟩
      exact absurd hg (Nat.not_lt_zero g)
    · intro g hg
      exact absurd hg (Nat.not_lt_zero g)
  | succ fuel ih =>
    intro f sprite regv disp hf hd
    have hvx : regv x % 256 < 256 := Nat.mod_lt _ (by norm_num)
    have hoffne : ∀ u u' : Nat, u ≤ 8 → u' ≤ 8 → u ≠ u' →
        row * 64 + (regv x % 256 + u) % 256 % 64 ≠ row * 64 + (regv x % 256 + u') % 256 % 64 := by
      intro u u' hu hu' hne
      omega
    have hbit : ∀ g, g ≤ 6 →
        sprite * 2 % 256 / 2 ^ (7 - g) % 2 = sprite / 2 ^ (7 - (g + 1)) % 2 := by
      intro g hg
      have h := sprite_shift_bit (6 - g) sprite (by omega)
      rw [show 6 - g + 1 = 7 - g by omega] at h
      rw [show 7 - (g + 1) = 6 - g by omega]
      exact h
    have hb7 : sprite / 2 ^ (7 - 0) % 2 = sprite / 128 % 2 := by norm_num
    by_cases hb : sprite / 128 % 2 = 1
    · by_cases hcol : disp (row * 64 + (regv x % 256 + f) % 256 % 64) = 0
      · -- bit set, pixel was clear: pixel turns on, no collision at this bit
        have hunf : drawBits x row f (fuel + 1) sprite regv disp =
            drawBits x row (f + 1) fuel (sprite * 2 % 256) regv
              (upd disp (row * 64 + (regv x % 256 + f) % 256 % 64) 1) := by
          rw [drawBits_unfold, if_pos hb, if_neg (not_not_intro hcol)]
        have hd2 := upd_le_one disp (row * 64 + (regv x % 256 + f) % 256 % 64) 1 hd (by omega)
        obtain ⟨ihA, ihBpos, ihBneg, ihC, ihD, ihE⟩ :=
          ih (f + 1) (sprite * 2 % 256) regv
            (upd disp (row * 64 + (regv x % 256 + f) % 256 % 64) 1) (by omega) hd2
        rw [hunf]
        refine ⟨ihA, ?_, ?_, ?_, ?_, ihE⟩
        · rintro ⟨g, hg, hbit1, hdisp1⟩
          rcases g with - | g'
          · simp only [Nat.add_zero] at hdisp1
            exact absurd hdisp1 (by rw [hcol]; omega)
          · refine ihBpos ⟨g', by omega, ?_, ?_⟩
            · rw [hbit g' (by omega)]
              exact hbit1
            · rw [show f + 1 + g' = f + (g' + 1) by omega,
                upd_ne _ _ _ _ (hoffne (f + (g' + 1)) f (by omega) (by omega) (by omega))]
              exact hdisp1
        · intro hno
          refine ihBneg ?_
          rintro ⟨g', hg', cbit, cdisp⟩
          rw [hbit g' (by omega)] at cbit
          rw [show f + 1 + g' = f + (g' + 1) by omega,
            upd_ne _ _ _ _ (hoffne (f + (g' + 1)) f (by omega) (by omega) (by omega))] at cdisp
          exact hno ⟨g' + 1, by omega, cbit, cdisp⟩
        · intro g hg
          rcases g with - | g'
          · simp only [Nat.add_zero]
            rw [hcol, hb7, hb]
            rw [ihD (row * 64 + (regv x % 256 + f) % 256 % 64)
              (fun g' hg' => hoffne f (f + 1 + g') (by omega) (by omega) (by omega)), upd_self]
          · have h := ihC g' (by omega)
            rw [show f + 1 + g' = f + (g' + 1) by omega,
              upd_ne _ _ _ _ (hoffne (f + (g' + 1)) f (by omega) (by omega) (by omega)),
              hbit g' (by omega)] at h
            exact h
        · intro off hoffp
          have h := ihD off (fun g' hg' => by
            rw [show f + 1 + g' = f + (g' + 1) by omega]
            exact hoffp (g' + 1) (by omega))
          rw [upd_ne _ _ _ _ (by
            have := hoffp 0 (by omega)
            simp only [Nat.add_zero] at this
            exact this)] at h
          exact h
      · -- bit set, pixel was set: pixel turns off, collision
        have hcol1 : disp (row * 64 + (regv x % 256 + f) % 256 % 64) = 1 := by
          have := hd (row * 64 + (regv x % 256 + f) % 256 % 64)
          omega
        have hunf : drawBits x row f (fuel + 1) sprite regv disp =
            drawBits x row (f + 1) fuel (sprite * 2 % 256) (upd regv 15 1)
              (upd disp (row * 64 + (regv x % 256 + f) % 256 % 64) 0) := by
          rw [drawBits_unfold, if_pos hb, if_pos hcol]
        have hd2 := upd_le_one disp (row * 64 + (regv x % 256 + f) % 256 % 64) 0 hd (by omega)
        obtain ⟨ihA, ihBpos, ihBneg, ihC, ihD, ihE⟩ :=
          ih (f + 1) (sprite * 2 % 256) (upd regv 15 1)
            (upd disp (row * 64 + (regv x % 256 + f) % 256 % 64) 0) (by omega) hd2
        have hregx : upd regv 15 1 x = regv x := upd_ne _ _ _ _ hx15
        rw [hregx] at ihBpos ihBneg ihC ihD
        rw [hunf]
        refine ⟨?_, ?_, ?_, ?_, ?_, ihE⟩
        · intro i hi
          rw [ihA i hi, upd_ne _ _ _ _ hi]
        · intro _
          by_cases hc : ∃ g, g < fuel ∧ sprite * 2 % 256 / 2 ^ (7 - g) % 2 = 1 ∧
              upd disp (row * 64 + (regv x % 256 + f) % 256 % 64) 0
                (row * 64 + (regv x % 256 + (f + 1 + g)) % 256 % 64) = 1
          · exact ihBpos hc
          · rw [ihBneg hc, upd_self]
        · intro hno
          exact absurd ⟨0, by omega, by rw [hb7]; exact hb, by simp only [Nat.add_zero]; exact hcol1⟩ hno
        · intro g hg
          rcases g with - | g'
          · simp only [Nat.add_zero]
            rw [hcol1, hb7, hb]
            rw [ihD (row * 64 + (regv x % 256 + f) % 256 % 64)
              (fun g' hg' => hoffne f (f + 1 + g') (by omega) (by omega) (by omega)), upd_self]
          · have h := ihC g' (by omega)
            rw [show f + 1 + g' = f + (g' + 1) by omega,
              upd_ne _ _ _ _ (hoffne (f + (g' + 1)) f (by omega) (by omega) (by omega)),
              hbit g' (by omega)] at h
            exact h
        · intro off hoffp
          have h := ihD off (fun g' hg' => by
            rw [show f + 1 + g' = f + (g' + 1) by omega]
            exact hoffp (g' + 1) (by omega))
          rw [upd_ne _ _ _ _ (by
            have := hoffp 0 (by omega)
            simp only [Nat.add_zero] at this
            exact this)] at h
          exact h
    · -- bit clear: nothing drawn at this bit
      have hb0 : sprite / 128 % 2 = 0 := by omega
      have hunf : drawBits x row f (fuel + 1) sprite regv disp =
          drawBits x row (f + 1) fuel (sprite * 2 % 256) regv disp := by
        rw [drawBits_unfold, if_neg hb]
      obtain ⟨ihA, ihBpos, ihBneg, ihC, ihD, ihE⟩ :=
        ih (f + 1) (sprite * 2 % 256) regv disp (by omega) hd
      rw [hunf]
      refine ⟨ihA, ?_, ?_, ?_, ?_, ihE⟩
      · rintro ⟨g, hg, hbit1, hdisp1⟩
        rcases g with - | g'
        · rw [hb7, hb0] at hbit1
          exact absurd hbit1 (by omega)
        · refine ihBpos ⟨g', by omega, ?_, ?_⟩
          · rw [hbit g' (by omega)]
            exact hbit1
          · rw [show f + 1 + g' = f + (g' + 1) by omega]
            exact hdisp1
      · intro hno
        refine ihBneg ?_
        rintro ⟨g', hg', cbit, cdisp⟩
        rw [hbit g' (by omega)] at cbit
        rw [show f + 1 + g' = f + (g' + 1) by omega] at cdisp
        exact hno ⟨g' + 1, by omega, cbit, cdisp⟩
      · intro g hg
        rcases g with - | g'
        · simp only [Nat.add_zero]
          rw [hb7, hb0]
          rw [ihD (row * 64 + (regv x % 256 + f) % 256 % 64)
            (fun g' hg' => hoffne f (f + 1 + g') (by omega) (by omega) (by omega))]
          have := hd (row * 64 + (regv x % 256 + f) % 256 % 64)
          omega
        · have h := ihC g' (by omega)
          rw [show f + 1 + g' = f + (g' + 1) by omega, hbit g' (by omega)] at h
          exact h
      · intro off hoffp
        exact ihD off (fun g' hg' => by
          rw [show f + 1 + g' = f + (g' + 1) by omega]
          exact hoffp (g' + 1) (by omega))

theorem drawRows_unfold (mem : Nat → Nat) (reg_i x y c fuel : Nat) (regv disp : Nat → Nat) :
    drawRows mem reg_i x y c (fuel + 1) regv disp =
      (if (reg_i + c) % 65536 < 4096 then
        drawRows mem reg_i x y (c + 1) fuel
          (drawBits x ((regv y % 256 + c) % 32) 0 8 (mem ((reg_i + c) % 65536) % 256) regv disp).1
          (drawBits x ((regv y % 256 + c) % 32) 0 8 (mem ((reg_i + c) % 65536) % 256) regv disp).2
      else none) := by
  rw [drawRows]

theorem drawRows_spec (mem : Nat → Nat) (reg_i x y : Nat) (hx15 : x ≠ 15) (hy15 : y ≠ 15) :
    ∀ fuel c regv disp, reg_i + c + fuel ≤ 4096 → c + fuel ≤ 16 →
      (∀ off, disp off ≤ 1) →
      ∃ q : (Nat → Nat) × (Nat → Nat), drawRows mem reg_i x y c fuel regv disp = some q ∧
        (∀ i, i ≠ 15 → q.1 i = regv i) ∧
        ((∃ j, j < fuel ∧ ∃ g, g < 8 ∧ mem (reg_i + (c + j)) % 256 / 2 ^ (7 - g) % 2 = 1 ∧
            disp ((regv y % 256 + (c + j)) % 32 * 64 + (regv x % 256 + g) % 256 % 64) = 1) →
          q.1 15 = 1) ∧
        (¬(∃ j, j < fuel ∧ ∃ g, g < 8 ∧ mem (reg_i + (c + j)) % 256 / 2 ^ (7 - g) % 2 = 1 ∧
            disp ((regv y % 256 + (c + j)) % 32 * 64 + (regv x % 256 + g) % 256 % 64) = 1) →
          q.1 15 = regv 15) ∧
        (∀ j g, j < fuel → g < 8 →
          q.2 ((regv y % 256 + (c + j)) % 32 * 64 + (regv x % 256 + g) % 256 % 64) =
            (disp ((regv y % 256 + (c + j)) % 32 * 64 + (regv x % 256 + g) % 256 % 64) +
              mem (reg_i + (c + j)) % 256 / 2 ^ (7 - g) % 2) % 2) ∧
        (∀ off, (∀ j g, j < fuel → g < 8 →
            off ≠ (regv y % 256 + (c + j)) % 32 * 64 + (regv x % 256 + g) % 256 % 64) →
          q.2 off = disp off) ∧
        (∀ off, q.2 off ≤ 1) := by
  intro fuel
  induction fuel with
  | zero =>
    intro c regv disp hbound hc hd
    refine ⟨(regv, disp), rfl, fun i _ => rfl, ?_, fun _ => rfl, ?_, fun off _ => rfl, hd⟩
    · rintro ⟨j, hj, -⟩
      exact absurd hj (Nat.not_lt_zero j)
    · intro j g hj hg
      exact absurd hj (Nat.not_lt_zero j)
  | succ fuel ih =>
    intro c regv disp hbound hc hd
    have hvy : regv y % 256 < 256 := Nat.mod_lt _ (by norm_num)
    have hvx : regv x % 256 < 256 := Nat.mod_lt _ (by norm_num)
    have haddr : (reg_i + c) % 65536 = reg_i + c := Nat.mod_eq_of_lt (by omega)
    have hrowne : ∀ j j' : Nat, j ≤ 16 → j' ≤ 16 → j ≠ j' →
        (regv y % 256 + j) % 32 ≠ (regv y % 256 + j') % 32 := by
      intro j j' hj hj' hne
      omega
    -- the inner loop for row `c`
    obtain ⟨dbA, dbBpos, dbBneg, dbC, dbD, dbE⟩ :=
      drawBits_spec x ((regv y % 256 + c) % 32) hx15 8 0 (mem (reg_i + c) % 256) regv disp
        (by omega) hd
    simp only [Nat.zero_add] at dbBpos dbBneg dbC dbD
    have hunf : drawRows mem reg_i x y c (fuel + 1) regv disp =
        drawRows mem reg_i x y (c + 1) fuel
          (drawBits x ((regv y % 256 + c) % 32) 0 8 (mem (reg_i + c) % 256) regv disp).1
          (drawBits x ((regv y % 256 + c) % 32) 0 8 (mem (reg_i + c) % 256) regv disp).2 := by
      rw [drawRows_unfold, haddr, if_pos (by omega)]
    obtain ⟨q, hq, ihA, ihBpos, ihBneg, ihC, ihD, ihE⟩ :=
      ih (c + 1)
        (drawBits x ((regv y % 256 + c) % 32) 0 8 (mem (reg_i + c) % 256) regv disp).1
        (drawBits x ((regv y % 256 + c) % 32) 0 8 (mem (reg_i + c) % 256) regv disp).2
        (by omega) (by omega) dbE
    rw [dbA x hx15] at ihBpos ihBneg ihC ihD
    rw [dbA y hy15] at ihBpos ihBneg ihC ihD
    -- offsets drawn by later rows live in other display rows
    have hcollt : ∀ g : Nat, (regv x % 256 + g) % 256 % 64 < 64 :=
      fun g => Nat.mod_lt _ (by norm_num)
    have hoffrow : ∀ j g g' : Nat, j < fuel → g < 8 → g' < 8 →
        (regv y % 256 + (c + 1 + j)) % 32 * 64 + (regv x % 256 + g) % 256 % 64 ≠
          (regv y % 256 + c) % 32 * 64 + (regv x % 256 + g') % 256 % 64 := by
      intro j g g' hj hg hg'
      have h1 := hrowne (c + 1 + j) c (by omega) (by omega) (by omega)
      have h2 := hcollt g
      have h3 := hcollt g'
      omega
    -- a later-row offset is untouched by the inner loop for row `c`
    have hdbD : ∀ j g, j < fuel → g < 8 →
        (drawBits x ((regv y % 256 + c) % 32) 0 8 (mem (reg_i + c) % 256) regv disp).2
            ((regv y % 256 + (c + 1 + j)) % 32 * 64 + (regv x % 256 + g) % 256 % 64) =
          disp ((regv y % 256 + (c + 1 + j)) % 32 * 64 + (regv x % 256 + g) % 256 % 64) := by
      intro j g hj hg
      exact dbD _ (fun g' hg' => hoffrow j g g' hj hg hg')
    refine ⟨q, by rw [hunf]; exact hq, ?_, ?_, ?_, ?_, ?_, ihE⟩
    · intro i hi
      rw [ihA i hi, dbA i hi]
    · rintro ⟨j, hj, g, hg, hbit1, hdisp1⟩
      rcases j with _ | j'
      · -- collision in row c itself
        simp only [Nat.add_zero] at hbit1 hdisp1
        have hdb15 : (drawBits x ((regv y % 256 + c) % 32) 0 8 (mem (reg_i + c) % 256) regv disp).1 15 = 1 :=
          dbBpos ⟨g, hg, hbit1, hdisp1⟩
        by_cases hcc : ∃ j, j < fuel ∧ ∃ g, g < 8 ∧ mem (reg_i + (c + 1 + j)) % 256 / 2 ^ (7 - g) % 2 = 1 ∧
            (drawBits x ((regv y % 256 + c) % 32) 0 8 (mem (reg_i + c) % 256) regv disp).2
              ((regv y % 256 + (c + 1 + j)) % 32 * 64 + (regv x % 256 + g) % 256 % 64) = 1
        · exact ihBpos hcc
        · rw [ihBneg hcc]
          exact hdb15
      · -- collision in a later row
        refine ihBpos ⟨j', by omega, g, hg, ?_, ?_⟩
        · rw [show c + 1 + j' = c + (j' + 1) by omega]
          exact hbit1
        · rw [hdbD j' g (by omega) hg, show c + 1 + j' = c + (j' + 1) by omega]
          exact hdisp1
    · intro hno
      have hnc : ¬∃ j, j < fuel ∧ ∃ g, g < 8 ∧ mem (reg_i + (c + 1 + j)) % 256 / 2 ^ (7 - g) % 2 = 1 ∧
          (drawBits x ((regv y % 256 + c) % 32) 0 8 (mem (reg_i + c) % 256) regv disp).2
            ((regv y % 256 + (c + 1 + j)) % 32 * 64 + (regv x % 256 + g) % 256 % 64) = 1 := by
        rintro ⟨j, hj, g, hg, cbit, cdisp⟩
        rw [hdbD j g hj hg] at cdisp
        rw [show c + 1 + j = c + (j + 1) by omega] at cbit cdisp
        exact hno ⟨j + 1, by omega, g, hg, cbit, cdisp⟩
      rw [ihBneg hnc]
      refine dbBneg ?_
      rintro ⟨g, hg, cbit, cdisp⟩
      exact hno ⟨0, by omega, g, hg, by simpa using cbit, by simpa using cdisp⟩
    · intro j g hj hg
      rcases j with _ | j'
      · simp only [Nat.add_zero]
        have huntouched : ∀ j' g', j' < fuel → g' < 8 →
            (regv y % 256 + c) % 32 * 64 + (regv x % 256 + g) % 256 % 64 ≠
              (regv y % 256 + (c + 1 + j')) % 32 * 64 + (regv x % 256 + g') % 256 % 64 :=
          fun j' g' hj' hg' => (hoffrow j' g' g hj' hg' hg).symm
        rw [ihD _ (fun j' g' hj' hg' => huntouched j' g' hj' hg')]
        exact dbC g hg
      · have h := ihC j' g (by omega) hg
        rw [hdbD j' g (by omega) hg] at h
        rw [show c + 1 + j' = c + (j' + 1) by omega] at h
        exact h
    · intro off hoffp
      have h := ihD off (fun j' g' hj' hg' => by
        rw [show c + 1 + j' = c + (j' + 1) by omega]
        exact hoffp (j' + 1) g' (by omega) hg')
      rw [dbD off (fun g' hg' => by
        have := hoffp 0 g' (by omega) hg'
        simpa using this)] at h
      exact h

/-- Reduction of the dispatch on a `Dxyn` (`DRW Vx, Vy, nibble`) opcode. -/
theorem exec_drw (t : Chip8) (rnd x y n : Nat) (hx : x < 16) (hy : y < 16) (hn : n < 16) :
    execOpcode t ((208 + x) * 256 + (16 * y + n)) rnd =
      match drawRows t.memory t.reg_i x y 0 n (upd t.reg_v 15 0) t.display with
      | some p => some { t with reg_v := p.1, display := p.2 }
      | none => none := by
  have h1 : ((208 + x) * 256 + (16 * y + n)) / 4096 = 13 := by omega
  have h2 : ((208 + x) * 256 + (16 * y + n)) / 256 % 16 = x := by omega
  have h3 : ((208 + x) * 256 + (16 * y + n)) / 16 % 16 = y := by omega
  have h4 : ((208 + x) * 256 + (16 * y + n)) % 16 = n := by omega
  simp only [execOpcode, h1, h2, h3, h4]
  norm_num

/-- C1 (amended): for draw fields `x ≠ 15` and `y ≠ 15`, `Dxyn` clears the
flag register, reads `n` sprite rows from memory at the index register, and
XOR-draws them at `(regX mod 64, regY mod 32)` with per-pixel column
wraparound mod 64 and per-row wraparound mod 32, for all register values
0-255; the flag ends 1 exactly when some set sprite bit lands on a pixel
that was already 1, else 0; registers other than the flag and all other
state except the display and program counter are untouched.  (When `x` or
`y` is 15 the draw position is read from the flag register itself, which
the instruction has just cleared and may set mid-draw, so the stated
position semantics fail; see the counterexample.)  In particular, drawing
the same single-bit sprite twice at the same coordinates on a blank
framebuffer leaves the pixel on with flag 0, then off with flag 1. -/
theorem drw_spec :
    (∀ (s : Chip8) (rnd x y n : Nat), x < 16 → y < 16 → n < 16 → x ≠ 15 → y ≠ 15 →
      s.reg_v x < 256 → s.reg_v y < 256 →
      s.reg_pc + 1 < 4096 →
      s.memory s.reg_pc % 256 = 208 + x →
      s.memory (s.reg_pc + 1) % 256 = 16 * y + n →
      s.reg_i + n ≤ 4096 →
      (∀ off, s.display off ≤ 1) →
      ∃ s', s.step rnd = some s' ∧
        (∀ c g, c < n → g < 8 →
          s'.display ((s.reg_v y + c) % 32 * 64 + (s.reg_v x + g) % 64) =
            (s.display ((s.reg_v y + c) % 32 * 64 + (s.reg_v x + g) % 64) +
              s.memory (s.reg_i + c) % 256 / 2 ^ (7 - g) % 2) % 2) ∧
        (∀ off, (∀ c g, c < n → g < 8 →
            off ≠ (s.reg_v y + c) % 32 * 64 + (s.reg_v x + g) % 64) →
          s'.display off = s.display off) ∧
        ((∃ c, c < n ∧ ∃ g, g < 8 ∧ s.memory (s.reg_i + c) % 256 / 2 ^ (7 - g) % 2 = 1 ∧
            s.display ((s.reg_v y + c) % 32 * 64 + (s.reg_v x + g) % 64) = 1) →
          s'.reg_v 15 = 1) ∧
        (¬(∃ c, c < n ∧ ∃ g, g < 8 ∧ s.memory (s.reg_i + c) % 256 / 2 ^ (7 - g) % 2 = 1 ∧
            s.display ((s.reg_v y + c) % 32 * 64 + (s.reg_v x + g) % 64) = 1) →
          s'.reg_v 15 = 0) ∧
        (∀ i, i < 16 → i ≠ 15 → s'.reg_v i = s.reg_v i) ∧
        s'.reg_pc = (s.reg_pc + 2) % 65536 ∧
        s'.memory = s.memory ∧ s'.reg_i = s.reg_i) ∧
    ((({ Chip8.new with
        memory := fun i => if i = 512 then 0xD0 else if i = 513 then 0x11 else if i = 514 then 0xD0 else if i = 515 then 0x11 else if i = 768 then 0x80 else 0,
        reg_v := fun i => if i = 0 then 3 else if i = 1 then 5 else 0,
        reg_i := 768 } : Chip8).step 0).map (fun t : Chip8 => (t.display 323, t.reg_v 15)) = some (1, 0) ∧
      ((({ Chip8.new with
        memory := fun i => if i = 512 then 0xD0 else if i = 513 then 0x11 else if i = 514 then 0xD0 else if i = 515 then 0x11 else if i = 768 then 0x80 else 0,
        reg_v := fun i => if i = 0 then 3 else if i = 1 then 5 else 0,
        reg_i := 768 } : Chip8).step 0).bind (fun t : Chip8 => t.step 0)).map (fun t : Chip8 => (t.display 323, t.reg_v 15)) = some (0, 1)) := by
  constructor
  · intro s rnd x y n hx hy hn hx15 hy15 hvx hvy hpc hhi hlo hbound hdisp
    rw [Chip8.step_eq s rnd hpc, hhi, hlo, exec_drw _ rnd x y n hx hy hn]
    obtain ⟨q, hq, qA, qBpos, qBneg, qC, qD, qE⟩ :=
      drawRows_spec s.memory s.reg_i x y hx15 hy15 n 0 (upd s.reg_v 15 0) s.display
        (by omega) (by omega) hdisp
    have hux : upd s.reg_v 15 0 x = s.reg_v x := upd_ne _ _ _ _ hx15
    have huy : upd s.reg_v 15 0 y = s.reg_v y := upd_ne _ _ _ _ hy15
    have hmm : ∀ a : Nat, a % 256 % 64 = a % 64 := fun a =>
      Nat.mod_mod_of_dvd a (by norm_num)
    simp only [hux, huy, Nat.zero_add, Nat.mod_eq_of_lt hvx, Nat.mod_eq_of_lt hvy, hmm]
      at qBpos qBneg qC qD
    rw [hq]
    refine ⟨_, rfl, ?_, ?_, ?_, ?_, ?_, rfl, rfl, rfl⟩
    · intro c g hc hg
      exact qC c g hc hg
    · intro off hoff
      exact qD off hoff
    · rintro ⟨c, hc, g, hg, h1, h2⟩
      exact qBpos ⟨c, hc, g, hg, h1, h2⟩
    · intro hno
      show q.1 15 = 0
      rw [qBneg hno, upd_self]
    · intro i hi hi15
      show q.1 i = s.reg_v i
      rw [qA i hi15, upd_ne _ _ _ _ hi15]
  · constructor
    · decide
    · decide

/-- C1 counterexample: a draw instruction whose `regX` field is the flag
register 15 (`DF11`, with `reg15 = 7` beforehand, a one-row sprite `0xC0`
at the index register, and the pixel at offset 0 already set).  The claim
places the sprite's two bits at columns `reg15` and `reg15 + 1` (i.e. 7 and
8, or 0 and 1 if the start-of-instruction clear is read first); the code
clears the flag, draws the first bit at column 0 (collision, flag becomes
1) and the second bit at column `(1 + 1) % 64 = 2` because the column base
re-reads the just-set flag: afterwards columns 1, 7 and 8 are all clear and
column 2 is set. -/
theorem drw_flag_alias_cex :
    ((({ Chip8.new with
        memory := fun i => if i = 512 then 0xDF else if i = 513 then 0x11 else if i = 768 then 0xC0 else 0,
        reg_v := fun i => if i = 15 then 7 else 0,
        reg_i := 768,
        display := fun off => if off = 0 then 1 else 0 } : Chip8).step 0).map
      (fun t : Chip8 => (t.display 0, t.display 1, t.display 2, t.display 7, t.display 8, t.reg_v 15))) =
      some (0, 0, 1, 0, 0, 1) := by
  decide

/-- C1 witness: the amended theorem applied at the concrete first draw of
the double-draw scenario (sprite bit `0x80`, position (3, 5)). -/
theorem drw_spec_witness :
    ∃ s', ({ Chip8.new with
        memory := fun i => if i = 512 then 0xD0 else if i = 513 then 0x11 else if i = 514 then 0xD0 else if i = 515 then 0x11 else if i = 768 then 0x80 else 0,
        reg_v := fun i => if i = 0 then 3 else if i = 1 then 5 else 0,
        reg_i := 768 } : Chip8).step 0 = some s' ∧
      s'.display ((5 + 0) % 32 * 64 + (3 + 0) % 64) = 1 ∧ s'.reg_v 15 = 0 := by
  obtain ⟨s', hstep, hC, hD, hBpos, hBneg, hreg, hpc, hmem, hi⟩ :=
    drw_spec.1 ({ Chip8.new with
        memory := fun i => if i = 512 then 0xD0 else if i = 513 then 0x11 else if i = 514 then 0xD0 else if i = 515 then 0x11 else if i = 768 then 0x80 else 0,
        reg_v := fun i => if i = 0 then 3 else if i = 1 then 5 else 0,
        reg_i := 768 } : Chip8) 0 0 1 1 (by decide) (by decide) (by decide) (by decide)
      (by decide) (by decide) (by decide) (by decide) (by decide) (by decide) (by decide)
      (fun off => Nat.zero_le 1)
  refine ⟨s', hstep, ?_, ?_⟩
  · have h := hC 0 0 (by decide) (by decide)
    simpa using h
  · refine hBneg ?_
    rintro ⟨c, hc, g, hg, h1, h2⟩
    exact Nat.one_ne_zero h2.symm

end Chipper
